import Mathlib

/-!
Shallow embedding of the GPIO button/LED driver (src/gpio_button/gpio_button.c)
and verification of its specification claims.

The driver's process-wide mutable state (gpio_button.c lines 29-40) is the
debounce flag `debounce_active`, the event flag `button_event_flag`, the
debounce timer, and the LED status integer.  Machine integers are modelled as
Nat/Int; the `atomic_t` flags are only ever 0/1 in the source, so they are
modelled as Bool.  External inputs (the sampled GPIO level, signal delivery to
a waiting task, success of copy_to_user) are passed as explicit parameters.
-/

namespace GpioButton

/-- Error identities returned by the driver or named by the specification.
`EINVAL`, `ERANGE`, `ERESTARTSYS`, `EFAULT` appear in gpio_button.c (via its
own returns or via kstrtoul); `EOVERFLOW` is included so that the
specification's distinct "overflow error" outcome is expressible. -/
inductive Errno
  | EINVAL
  | ERANGE
  | ERESTARTSYS
  | EFAULT
  | EOVERFLOW
  deriving DecidableEq, Repr

/-- Return value of an interrupt service routine (linux/interrupt.h). -/
inductive IrqRet
  | IRQ_HANDLED
  | IRQ_NONE
  deriving DecidableEq, Repr

/-- The driver's shared mutable state, gpio_button.c lines 29-40:
`debounce_active` (line 30, atomic_t used as 0/1), `button_event_flag`
(line 39, atomic_t used as 0/1), the pending expiry of `debounce_timer`
(line 29; `none` when not pending, `some t` when set to fire at time `t`,
measured in milliseconds), and `led_status` (line 40). -/
structure Driver where
  debounce_active : Bool
  button_event_flag : Bool
  timer : Option Nat
  led_status : Nat
  deriving DecidableEq, Repr

/-- The fixed debounce delay: `msecs_to_jiffies(50)` at line 62, in ms. -/
def DEBOUNCE_MS : Nat := 50

/-- `button_isr` (gpio_button.c lines 54-65).  If `debounce_active` is set the
interrupt is ignored (line 57-58); otherwise the flag is set and the debounce
timer is re-armed to `now + 50ms` (lines 61-62).  Both paths return
IRQ_HANDLED.  `now` stands for `jiffies`, in ms. -/
def button_isr (now : Nat) (s : Driver) : Driver × IrqRet :=
  if s.debounce_active then
    (s, .IRQ_HANDLED)
  else
    ({ s with debounce_active := true, timer := some (now + DEBOUNCE_MS) }, .IRQ_HANDLED)

/-- `debounce_timer_callback` (gpio_button.c lines 42-52).  `sample` is the
value read by `gpiod_get_value(button_gpio)` (line 44).  If the sampled level
is 0 (active-low pressed, line 46) the event flag is set and `wake_up` is
called (lines 47-48); the returned Bool records whether `wake_up` ran.
`debounce_active` is cleared unconditionally (line 51). -/
def debounce_timer_callback (sample : Int) (s : Driver) : Driver × Bool :=
  if sample = 0 then
    ({ s with button_event_flag := true, debounce_active := false }, true)
  else
    ({ s with debounce_active := false }, false)

/-- Possible outcomes of one `gpio_button_read` call. -/
inductive ReadResult
  | blocked
  | err (e : Errno)
  | ok (byte : Char) (count : Nat)
  deriving DecidableEq, Repr

/-- `gpio_button_read` (gpio_button.c lines 67-89).  The
`wait_event_interruptible` at line 73 checks the wait condition
(`atomic_read(&button_event_flag)`) before checking for a pending signal, so:
if the flag is set the call proceeds (even if a signal is pending); otherwise,
if a signal is pending (`intr = true`) it returns -ERESTARTSYS (line 75);
otherwise the caller sleeps (`blocked`).  On the success path the flag is
cleared (line 82) before `copy_to_user` (line 85), whose outcome is the
parameter `copyOk`; on copy failure -EFAULT is returned with the flag already
cleared.  Success returns the single byte `'1'` and count
`sizeof(event_char) = 1` (lines 79, 88). -/
def gpio_button_read (intr copyOk : Bool) (s : Driver) : ReadResult × Driver :=
  if s.button_event_flag then
    let s2 := { s with button_event_flag := false }
    if copyOk then (.ok '1' 1, s2) else (.err .EFAULT, s2)
  else if intr then
    (.err .ERESTARTSYS, s)
  else
    (.blocked, s)

/-- POLLIN bit returned by `gpio_button_poll`. -/
def POLLIN : Nat := 1

/-- `gpio_button_poll` (gpio_button.c lines 91-95): registers on the wait
queue and reports POLLIN iff the event flag is currently set; it never writes
any state. -/
def gpio_button_poll (s : Driver) : Nat × Driver :=
  ((if s.button_event_flag then POLLIN else 0), s)

/-- The state transformer of one poll call (identity on the driver state). -/
def pollState (s : Driver) : Driver := (gpio_button_poll s).2

/-!
The sysfs store handler `led_status_store` (gpio_button.c lines 115-159) and
the kernel's `kstrtoul` (lib/kstrtox.c) that it calls at line 140 with base
10.  Strings are modelled as `List Char`; `buf` is the `count` input bytes
(the kernel passes a NUL-terminated copy; the handler re-copies and
NUL-terminates into `local_buf`).
-/

/-- 2^64: one past ULLONG_MAX / SIZE_MAX on the 64-bit target. -/
def ULONG_MOD : Nat := 2 ^ 64

/-- The digit test performed by `_parse_integer` for base 10: the byte lies
in the ASCII range of the character 0 (48) through the character 9 (57). -/
def isDigitByte (c : Char) : Bool :=
  decide (48 ≤ c.toNat) && decide (c.toNat ≤ 57)

/-- Accumulated numeric value of a digit string, exactly as `_parse_integer`
accumulates it: `res = res * base + digit`, starting from 0, base 10. -/
def digitsVal (l : List Char) : Nat :=
  l.foldl (fun acc c => acc * 10 + (c.toNat - 48)) 0

/-- `kstrtoull`'s skip of a single leading plus sign (lib/kstrtox.c). -/
def skipPlus (s : List Char) : List Char :=
  if s.head? = some '+' then s.tail else s

/-- `_kstrtoull`'s skip of a single newline after the digits. -/
def skipNl1 (s : List Char) : List Char :=
  if s.head? = some '\n' then s.tail else s

/-- `kstrtoul(s, 10, &val)` as called at gpio_button.c line 140: skip one
leading plus, consume the maximal run of decimal digits; no digits is
-EINVAL; a value overflowing unsigned long long is -ERANGE; after the digits
one newline is skipped and anything further is -EINVAL; otherwise the parsed
value is returned. -/
def kstrtoul (s : List Char) : Except Errno Nat :=
  if (skipPlus s).takeWhile isDigitByte = [] then .error .EINVAL
  else if ULONG_MOD ≤ digitsVal ((skipPlus s).takeWhile isDigitByte) then .error .ERANGE
  else if skipNl1 ((skipPlus s).dropWhile isDigitByte) = [] then
    .ok (digitsVal ((skipPlus s).takeWhile isDigitByte))
  else .error .EINVAL

/-- The newline strip of `led_status_store` (lines 132-134): if the last
input byte is a newline it is overwritten with NUL, i.e. dropped.  (Defined
for nonempty input; the `count = 0` case is the out-of-bounds access treated
separately via `store_buffer_accesses`.) -/
def stripNl (buf : List Char) : List Char :=
  if buf.getLast? = some '\n' then buf.dropLast else buf

/-- The C-string view of the processed buffer: `kstrtoul` at line 140 reads
`local_buf` as a NUL-terminated C string, i.e. only the bytes before the
first NUL.  The handler NUL-terminates at index `count` (line 129), but the
written bytes may themselves contain NUL bytes, and everything from the
first such byte on is invisible to the parse. -/
def cString (l : List Char) : List Char :=
  l.takeWhile (fun c => c != '\x00')

/-- `led_status_store` (gpio_button.c lines 115-159) acting on the input
bytes and the current `led_status`; returns the handler's return value and
the new `led_status`.  `count >= 16` fails the size guard with -EINVAL
(lines 122-125); otherwise a trailing newline in the raw last byte is
overwritten with NUL (lines 132-134), the buffer is parsed as a C string —
only the bytes before the first NUL — by `kstrtoul` base 10 (line 140, its
error returned as-is), values other than 0 and 1 are rejected with -EINVAL
(lines 147-150), and on acceptance `led_status` is set (and the LED line
driven) to the value and `count` is returned (lines 153-158). -/
def led_status_store (buf : List Char) (led : Nat) : Except Errno Nat × Nat :=
  if 16 ≤ buf.length then (.error .EINVAL, led)
  else
    match kstrtoul (cString (stripNl buf)) with
    | .error e => (.error e, led)
    | .ok v => if v ≠ 0 ∧ v ≠ 1 then (.error .EINVAL, led) else (.ok buf.length, v)

/-- The four write forms the specification names as the accepted set. -/
def spec_accepted_forms : List (List Char) :=
  [['0'], ['1'], ['0', '\n'], ['1', '\n']]

/-- Declarative shape of the inputs `kstrtoul` accepts with value at most 1:
an optional plus sign, a nonempty run of decimal digits of value 0 or 1, and
an optional single trailing newline. -/
def kstr_accepted_spec (s : List Char) : Prop :=
  ∃ plus ds nl, s = plus ++ ds ++ nl ∧ (plus = [] ∨ plus = ['+']) ∧
    ds ≠ [] ∧ (∀ c ∈ ds, isDigitByte c = true) ∧
    (nl = [] ∨ nl = ['\n']) ∧ digitsVal ds ≤ 1

end GpioButton

namespace GpioButton

/-- Every element of `takeWhile p` satisfies `p`. -/
theorem mem_takeWhile_true (p : Char → Bool) (l : List Char) :
    ∀ c ∈ l.takeWhile p, p c = true := by
  induction l with
  | nil => intro c hc; simp [List.takeWhile] at hc
  | cons a t ih =>
    intro c hc
    rw [List.takeWhile_cons] at hc
    by_cases ha : p a = true
    · rw [if_pos ha] at hc
      rcases List.mem_cons.mp hc with h | h
      · subst h; exact ha
      · exact ih c h
    · rw [if_neg ha] at hc
      simp at hc

/-- The head of `dropWhile p` (when present) fails `p`. -/
theorem head_dropWhile_false (p : Char → Bool) (l : List Char) :
    ∀ c, (l.dropWhile p).head? = some c → p c = false := by
  induction l with
  | nil => intro c hc; simp [List.dropWhile] at hc
  | cons a t ih =>
    intro c hc
    rw [List.dropWhile_cons] at hc
    by_cases ha : p a = true
    · rw [if_pos ha] at hc; exact ih c hc
    · rw [if_neg ha] at hc
      simp only [List.head?_cons, Option.some.injEq] at hc
      subst hc
      simpa using ha

/-- `takeWhile` never lengthens a list. -/
theorem length_takeWhile_le' (p : Char → Bool) (l : List Char) :
    (l.takeWhile p).length ≤ l.length := by
  induction l with
  | nil => simp [List.takeWhile]
  | cons a t ih =>
    rw [List.takeWhile_cons]
    by_cases ha : p a = true
    · rw [if_pos ha]; simpa using ih
    · rw [if_neg ha]; simp

/-- On a list that splits as an all-`p` part followed by a part whose head
fails `p`, `takeWhile`/`dropWhile` recover exactly that split. -/
theorem takeWhile_dropWhile_append (p : Char → Bool) (l r : List Char)
    (hl : ∀ c ∈ l, p c = true) (hr : ∀ c, r.head? = some c → p c = false) :
    (l ++ r).takeWhile p = l ∧ (l ++ r).dropWhile p = r := by
  induction l with
  | nil =>
    cases r with
    | nil => simp [List.takeWhile, List.dropWhile]
    | cons b t =>
      have hb : p b = false := hr b rfl
      constructor
      · rw [List.nil_append, List.takeWhile_cons, if_neg (by simp [hb])]
      · rw [List.nil_append, List.dropWhile_cons, if_neg (by simp [hb])]
  | cons a t ih =>
    have ha : p a = true := hl a (by simp)
    have iht := ih (fun c hc => hl c (by simp [hc]))
    constructor
    · rw [List.cons_append, List.takeWhile_cons, if_pos ha, iht.1]
    · rw [List.cons_append, List.dropWhile_cons, if_pos ha, iht.2]

/-- Value bound for a digit run, generalised over the accumulator. -/
theorem digits_foldl_lt (l : List Char) (hl : ∀ c ∈ l, isDigitByte c = true) :
    ∀ acc : Nat,
      l.foldl (fun a c => a * 10 + (c.toNat - 48)) acc < (acc + 1) * 10 ^ l.length := by
  induction l with
  | nil => intro acc; simp
  | cons c t ih =>
    intro acc
    have hc : isDigitByte c = true := hl c (by simp)
    have hd : c.toNat - 48 ≤ 9 := by
      simp [isDigitByte] at hc; omega
    have h1 := ih (fun x hx => hl x (by simp [hx])) (acc * 10 + (c.toNat - 48))
    have key : acc * 10 + (c.toNat - 48) + 1 ≤ (acc + 1) * 10 := by omega
    have h2 : (acc * 10 + (c.toNat - 48) + 1) * 10 ^ t.length ≤ (acc + 1) * 10 ^ (t.length + 1) := by
      rw [pow_succ]
      calc (acc * 10 + (c.toNat - 48) + 1) * 10 ^ t.length
          ≤ ((acc + 1) * 10) * 10 ^ t.length := Nat.mul_le_mul_right _ key
        _ = (acc + 1) * (10 ^ t.length * 10) := by ring
    rw [List.foldl_cons, List.length_cons]
    exact Nat.lt_of_lt_of_le h1 h2

/-- A digit run of length at most 15 cannot overflow unsigned long long. -/
theorem digitsVal_lt_mod (l : List Char) (hl : ∀ c ∈ l, isDigitByte c = true)
    (hlen : l.length ≤ 15) : digitsVal l < ULONG_MOD := by
  have h1 : digitsVal l < 10 ^ l.length := by
    have := digits_foldl_lt l hl 0
    simpa [digitsVal] using this
  have h2 : (10 : Nat) ^ l.length ≤ 10 ^ 15 := Nat.pow_le_pow_right (by omega) hlen
  have h3 : (10 : Nat) ^ 15 < ULONG_MOD := by decide
  omega

/-- `skipNl1` yields the empty list exactly on `[]` and `['\n']`. -/
theorem skipNl1_eq_nil (r : List Char) (h : skipNl1 r = []) : r = [] ∨ r = ['\n'] := by
  unfold skipNl1 at h
  by_cases hh : r.head? = some '\n'
  · rw [if_pos hh] at h
    right
    cases r with
    | nil => simp at hh
    | cons a t =>
      simp only [List.head?_cons, Option.some.injEq] at hh
      simp only [List.tail_cons] at h
      rw [hh, h]
  · rw [if_neg hh] at h
    exact Or.inl h

/-- `skipPlus` removes one leading plus when present and is otherwise the
identity. -/
theorem skipPlus_decomp (s : List Char) :
    (s.head? = some '+' ∧ s = '+' :: skipPlus s) ∨
    (s.head? ≠ some '+' ∧ skipPlus s = s) := by
  by_cases h : s.head? = some '+'
  · left
    refine ⟨h, ?_⟩
    unfold skipPlus
    rw [if_pos h]
    cases s with
    | nil => simp at h
    | cons a t =>
      simp only [List.head?_cons, Option.some.injEq] at h
      rw [h]
      rfl
  · right
    exact ⟨h, by unfold skipPlus; rw [if_neg h]⟩

/-- `skipPlus` never lengthens its input. -/
theorem length_skipPlus_le (s : List Char) : (skipPlus s).length ≤ s.length := by
  unfold skipPlus
  by_cases h : s.head? = some '+'
  · rw [if_pos h]
    cases s <;> simp
  · rw [if_neg h]

/-- Soundness of the parse: a successful `kstrtoul` run decomposes its input
into an optional plus, a nonempty digit run of the returned value, and an
optional trailing newline. -/
theorem kstrtoul_ok_decomp (s : List Char) (v : Nat)
    (h : kstrtoul s = Except.ok v) :
    ∃ plus ds nl, s = plus ++ ds ++ nl ∧ (plus = [] ∨ plus = ['+']) ∧
      ds ≠ [] ∧ (∀ c ∈ ds, isDigitByte c = true) ∧
      (nl = [] ∨ nl = ['\n']) ∧ digitsVal ds = v := by
  unfold kstrtoul at h
  by_cases h1 : (skipPlus s).takeWhile isDigitByte = []
  · rw [if_pos h1] at h; exact absurd h (by simp)
  · rw [if_neg h1] at h
    by_cases h2 : ULONG_MOD ≤ digitsVal ((skipPlus s).takeWhile isDigitByte)
    · rw [if_pos h2] at h; exact absurd h (by simp)
    · rw [if_neg h2] at h
      by_cases h3 : skipNl1 ((skipPlus s).dropWhile isDigitByte) = []
      · rw [if_pos h3] at h
        have hv : digitsVal ((skipPlus s).takeWhile isDigitByte) = v := by
          simpa using h
        have hsplit : (skipPlus s).takeWhile isDigitByte ++ (skipPlus s).dropWhile isDigitByte
            = skipPlus s := List.takeWhile_append_dropWhile isDigitByte (skipPlus s)
        rcases skipPlus_decomp s with ⟨hp, hs⟩ | ⟨hp, hs⟩
        · refine ⟨['+'], (skipPlus s).takeWhile isDigitByte,
            (skipPlus s).dropWhile isDigitByte, ?_, Or.inr rfl, h1,
            mem_takeWhile_true _ _, skipNl1_eq_nil _ h3, hv⟩
          rw [List.append_assoc, hsplit]
          simpa using hs
        · refine ⟨[], (skipPlus s).takeWhile isDigitByte,
            (skipPlus s).dropWhile isDigitByte, ?_, Or.inl rfl, h1,
            mem_takeWhile_true _ _, skipNl1_eq_nil _ h3, hv⟩
          rw [List.append_assoc, hsplit]
          simp [hs]
      · rw [if_neg h3] at h; exact absurd h (by simp)

/-- Completeness of the parse: any input of that shape is accepted by
`kstrtoul` with the digit run's value. -/
theorem kstrtoul_ok_of_decomp (plus ds nl : List Char)
    (hplus : plus = [] ∨ plus = ['+']) (hds : ds ≠ [])
    (hdig : ∀ c ∈ ds, isDigitByte c = true) (hnl : nl = [] ∨ nl = ['\n'])
    (hval : digitsVal ds < ULONG_MOD) :
    kstrtoul (plus ++ ds ++ nl) = Except.ok (digitsVal ds) := by
  have hr : ∀ c, nl.head? = some c → isDigitByte c = false := by
    intro c hc
    rcases hnl with h | h <;> subst h
    · simp at hc
    · simp only [List.head?_cons, Option.some.injEq] at hc
      subst hc
      decide
  have hsp : skipPlus (plus ++ ds ++ nl) = ds ++ nl := by
    rcases hplus with h | h <;> subst h
    · simp only [List.nil_append]
      cases ds with
      | nil => exact absurd rfl hds
      | cons d dt =>
        have hd : isDigitByte d = true := hdig d (by simp)
        have hne : d ≠ '+' := by
          intro he
          rw [he] at hd
          exact absurd hd (by decide)
        unfold skipPlus
        rw [if_neg (by simp [hne])]
    · unfold skipPlus
      rw [if_pos (by simp)]
      simp
  have htw := takeWhile_dropWhile_append isDigitByte ds nl hdig hr
  have hnl1 : skipNl1 nl = [] := by
    rcases hnl with h | h <;> subst h <;> rfl
  unfold kstrtoul
  rw [hsp, htw.1, htw.2, if_neg hds, if_neg (not_le.mpr hval), hnl1, if_pos rfl]

/-- Within the handler's 15-byte bound `kstrtoul` can only fail with -EINVAL
(the digit run is too short to overflow, so -ERANGE is unreachable). -/
theorem kstrtoul_error_EINVAL (s : List Char) (hlen : s.length ≤ 15) (e : Errno)
    (h : kstrtoul s = Except.error e) : e = Errno.EINVAL := by
  have hd : ∀ c ∈ (skipPlus s).takeWhile isDigitByte, isDigitByte c = true :=
    mem_takeWhile_true _ _
  have hlen2 : ((skipPlus s).takeWhile isDigitByte).length ≤ 15 := by
    have ha := length_takeWhile_le' isDigitByte (skipPlus s)
    have hb := length_skipPlus_le s
    omega
  have hno : ¬ ULONG_MOD ≤ digitsVal ((skipPlus s).takeWhile isDigitByte) :=
    not_le.mpr (digitsVal_lt_mod _ hd hlen2)
  unfold kstrtoul at h
  by_cases h1 : (skipPlus s).takeWhile isDigitByte = []
  · rw [if_pos h1] at h
    simpa using h.symm
  · rw [if_neg h1, if_neg hno] at h
    by_cases h3 : skipNl1 ((skipPlus s).dropWhile isDigitByte) = []
    · rw [if_pos h3] at h; exact absurd h (by simp)
    · rw [if_neg h3] at h
      simpa using h.symm

/-- Stripping the trailing newline never lengthens the input. -/
theorem length_stripNl_le (buf : List Char) : (stripNl buf).length ≤ buf.length := by
  unfold stripNl
  by_cases h : buf.getLast? = some '\n'
  · rw [if_pos h]
    simp [List.length_dropLast]
  · rw [if_neg h]

/-- Unfolding `led_status_store` on a parse error. -/
theorem led_status_store_of_error (buf : List Char) (led : Nat) (e : Errno)
    (hg : ¬ 16 ≤ buf.length) (hk : kstrtoul (cString (stripNl buf)) = Except.error e) :
    led_status_store buf led = (Except.error e, led) := by
  unfold led_status_store
  rw [if_neg hg, hk]

/-- Unfolding `led_status_store` on a parsed value other than 0 and 1. -/
theorem led_status_store_of_ok_big (buf : List Char) (led : Nat) (v : Nat)
    (hg : ¬ 16 ≤ buf.length) (hk : kstrtoul (cString (stripNl buf)) = Except.ok v)
    (hv : v ≠ 0 ∧ v ≠ 1) :
    led_status_store buf led = (Except.error Errno.EINVAL, led) := by
  unfold led_status_store
  rw [if_neg hg, hk]
  simp only [if_pos hv]

/-- Unfolding `led_status_store` on an accepted value (0 or 1). -/
theorem led_status_store_of_ok_small (buf : List Char) (led : Nat) (v : Nat)
    (hg : ¬ 16 ≤ buf.length) (hk : kstrtoul (cString (stripNl buf)) = Except.ok v)
    (hv : ¬ (v ≠ 0 ∧ v ≠ 1)) :
    led_status_store buf led = (Except.ok buf.length, v) := by
  unfold led_status_store
  rw [if_neg hg, hk]
  simp only [if_neg hv]

/-- C5 (counterexample to the claimed accepted set): the two-byte write
`"00"` is within the 15-byte bound and is not one of the four forms the
specification lists, yet the handler accepts it (returns the byte count and
sets LedStatus to 0): `kstrtoul` accepts leading zeros.  Likewise, the
two-byte write `"1\x00"` is accepted with value 1, because `kstrtoul` reads
the buffer as a C string ending at the first NUL byte. -/
theorem led_status_store_accepts_double_zero :
    led_status_store ['0', '0'] 1 = (Except.ok 2, 0) ∧
    led_status_store ['1', '\x00'] 0 = (Except.ok 2, 1) ∧
    decide (['0', '0'] ∈ spec_accepted_forms) = false ∧
    decide (['1', '\x00'] ∈ spec_accepted_forms) = false := by
  exact ⟨rfl, rfl, rfl, rfl⟩

/-- C5 (amended): for every write of 1 to 15 bytes, the write is accepted
iff its effective content — the bytes before the first NUL, after the
handler's trailing-newline strip — is an optional plus sign, a nonempty run
of decimal digits of value 0 or 1, and an optional single further newline
(a strictly larger set than the specification's four forms); every rejection
within the bound is the invalid-argument error and leaves LedStatus
unchanged; every acceptance returns the byte count and sets LedStatus to the
parsed value. -/
theorem led_status_store_amended (buf : List Char) (led : Nat)
    (hlo : 1 ≤ buf.length) (hhi : buf.length ≤ 15) :
    ((led_status_store buf led).1 = Except.ok buf.length ↔
      kstr_accepted_spec (cString (stripNl buf))) ∧
    (∀ e, (led_status_store buf led).1 = Except.error e →
      e = Errno.EINVAL ∧ (led_status_store buf led).2 = led) ∧
    (∀ v, kstrtoul (cString (stripNl buf)) = Except.ok v → v ≤ 1 →
      (led_status_store buf led).1 = Except.ok buf.length ∧
      (led_status_store buf led).2 = v) := by
  have hg : ¬ 16 ≤ buf.length := by omega
  have hsl : (cString (stripNl buf)).length ≤ 15 :=
    le_trans (length_takeWhile_le' _ _) (le_trans (length_stripNl_le buf) hhi)
  cases hk : kstrtoul (cString (stripNl buf)) with
  | error e0 =>
    have hstore := led_status_store_of_error buf led e0 hg hk
    rw [hstore]
    have he0 : e0 = Errno.EINVAL := kstrtoul_error_EINVAL _ hsl e0 hk
    refine ⟨⟨fun habs => absurd habs (by simp), fun hacc => ?_⟩, ?_, ?_⟩
    · obtain ⟨plus, ds, nl, hs, hplus, hds, hdig, hnl, hval⟩ := hacc
      have hok := kstrtoul_ok_of_decomp plus ds nl hplus hds hdig hnl
        (lt_of_le_of_lt hval (by decide))
      rw [← hs, hk] at hok
      exact absurd hok (by simp)
    · intro e he
      have : e0 = e := by simpa using he
      exact ⟨this ▸ he0, rfl⟩
    · intro v hv
      exact absurd hv (by simp)
  | ok v0 =>
    by_cases hv0 : v0 ≠ 0 ∧ v0 ≠ 1
    · have hstore := led_status_store_of_ok_big buf led v0 hg hk hv0
      rw [hstore]
      refine ⟨⟨fun habs => absurd habs (by simp), fun hacc => ?_⟩, ?_, ?_⟩
      · obtain ⟨plus, ds, nl, hs, hplus, hds, hdig, hnl, hval⟩ := hacc
        have hok := kstrtoul_ok_of_decomp plus ds nl hplus hds hdig hnl
          (lt_of_le_of_lt hval (by decide))
        rw [← hs, hk] at hok
        have : digitsVal ds = v0 := by simpa using hok.symm
        omega
      · intro e he
        have : Errno.EINVAL = e := by simpa using he
        exact ⟨this.symm, rfl⟩
      · intro v hv hv1
        have : v0 = v := by simpa using hv
        omega
    · have hstore := led_status_store_of_ok_small buf led v0 hg hk hv0
      rw [hstore]
      refine ⟨⟨fun _ => ?_, fun _ => rfl⟩, ?_, ?_⟩
      · obtain ⟨plus, ds, nl, hs, hplus, hds, hdig, hnl, hval⟩ :=
          kstrtoul_ok_decomp _ _ hk
        exact ⟨plus, ds, nl, hs, hplus, hds, hdig, hnl, by omega⟩
      · intro e he
        exact absurd he (by simp)
      · intro v hv hv1
        have : v0 = v := by simpa using hv
        exact ⟨rfl, this⟩

/-- Witness for `led_status_store_amended`: the write `"1\n"` (length 2) is
accepted and sets LedStatus to 1. -/
theorem led_status_store_amended_witness :
    (led_status_store ['1', '\n'] 0).1 = Except.ok 2 ∧
    (led_status_store ['1', '\n'] 0).2 = 1 :=
  (led_status_store_amended ['1', '\n'] 0 (by decide) (by decide)).2.2 1 rfl (by decide)

/-- C6 (counterexample to "overflow error"): a 20-byte write is rejected,
before parsing and leaving LedStatus unchanged, but with -EINVAL — the very
same invalid-argument error used for malformed content (writing "2" also
yields -EINVAL) — not with a distinct overflow error. -/
theorem led_status_store_oversized_not_overflow :
    led_status_store (List.replicate 20 '1') 1 = (Except.error Errno.EINVAL, 1) ∧
    led_status_store ['2'] 1 = (Except.error Errno.EINVAL, 1) ∧
    decide (Errno.EINVAL = Errno.EOVERFLOW) = false ∧
    decide (Errno.EINVAL = Errno.ERANGE) = false := by
  exact ⟨rfl, rfl, rfl, rfl⟩

/-- C6 (amended): every write longer than 15 bytes is rejected with the
invalid-argument error -EINVAL before any parsing is attempted (the result
does not depend on the bytes at all) and leaves LedStatus unchanged. -/
theorem led_status_store_oversized (buf : List Char) (led : Nat)
    (h : 16 ≤ buf.length) :
    led_status_store buf led = (Except.error Errno.EINVAL, led) := by
  unfold led_status_store
  rw [if_pos h]

/-- Witness for `led_status_store_oversized`: a 20-byte all-digits write
whose prefix would parse fine is still rejected up front. -/
theorem led_status_store_oversized_witness :
    led_status_store (List.replicate 20 '1') 0 = (Except.error Errno.EINVAL, 0) :=
  led_status_store_oversized (List.replicate 20 '1') 0 (by simp)

/-!
Lifecycle model of `gpio_probe` (lines 165-296) and `gpio_remove`
(lines 298-317).  Each resource the probe acquires is named; `gpio_probe` is
a function of which acquisition steps succeed, returning whether the probe
succeeded, the resources acquired (in acquisition order), and the release
actions executed by the error-rollback `goto` chain (in execution order).
`gpio_remove`'s teardown is the list of release actions it executes, in
order.
-/

/-- The driver's resources, in the order `gpio_probe` acquires them:
the button GPIO (line 174), the LED GPIO (line 184), the registered
interrupt handler (line 207), the chrdev region (line 217), the added cdev
(line 227), the device class (line 235), the /dev event device node
(line 246), the sysfs device (line 249), the led_status sysfs attribute
(line 258), and the debounce timer (line 266). -/
inductive Res
  | button
  | led
  | irq
  | chrdev
  | cdev
  | devclass
  | devNode
  | sysfsDev
  | attr
  | timer
  deriving DecidableEq, Repr

/-- Acquisition order of `gpio_probe` (lines 174-266). -/
def gpio_acquire_order : List Res :=
  [.button, .led, .irq, .chrdev, .cdev, .devclass, .devNode, .sysfsDev, .attr, .timer]

/-- The release actions of `gpio_remove` (lines 298-317), in order:
device_remove_file, device_destroy(cl, 0), device_destroy(cl, dev_num),
class_destroy, cdev_del, unregister_chrdev_region, free_irq,
gpiod_put(button_gpio), gpiod_put(led_gpio).  Note there is no timer
teardown, and the button GPIO is released before the LED GPIO. -/
def gpio_remove_seq : List Res :=
  [.attr, .sysfsDev, .devNode, .devclass, .cdev, .chrdev, .irq, .button, .led]

/-- The `goto` rollback labels of `gpio_probe` (lines 273-292), innermost
first; each label falls through to the next. -/
def err_led_rollback : List Res := [.button]

/-- Label err_irq (line 288): gpiod_put(led_gpio), then fall through. -/
def err_irq_rollback : List Res := .led :: err_led_rollback

/-- Label err_alloc (line 285): free_irq, then fall through. -/
def err_alloc_rollback : List Res := .irq :: err_irq_rollback

/-- Label err_add (line 282): unregister_chrdev_region, then fall through. -/
def err_add_rollback : List Res := .chrdev :: err_alloc_rollback

/-- Label err_class (line 279): cdev_del, then fall through.  Note this
label does NOT call class_destroy. -/
def err_class_rollback : List Res := .cdev :: err_add_rollback

/-- Label err_sysfs_dev (line 276): device_destroy(cl, dev_num). -/
def err_sysfs_dev_rollback : List Res := .devNode :: err_class_rollback

/-- Label err_sysfs_attr (line 273): device_destroy(cl, 0). -/
def err_sysfs_attr_rollback : List Res := .sysfsDev :: err_sysfs_dev_rollback

/-- Outcomes of the fallible acquisition steps of `gpio_probe`:
gpiod_get("button"), gpiod_get("led"), gpiod_to_irq, request_irq,
alloc_chrdev_region, cdev_add, class_create, device_create (sysfs device),
device_create_file.  (The /dev node's device_create at line 246 is not
error-checked, and timer_setup cannot fail.) -/
structure ProbeEnv where
  buttonOk : Bool
  ledOk : Bool
  irqGetOk : Bool
  irqReqOk : Bool
  chrdevOk : Bool
  cdevAddOk : Bool
  classOk : Bool
  sysfsDevOk : Bool
  attrOk : Bool
  deriving DecidableEq, Repr

/-- `gpio_probe` (lines 165-296): returns (probe succeeded, resources
acquired in order, rollback releases executed in order).  Each failing step
jumps to its `goto` label; a failed gpiod_to_irq or request_irq jumps to
err_irq (the derived IRQ number itself needs no release); a failed cdev_add
jumps to err_add (the initialised-but-not-added cdev needs no delete). -/
def gpio_probe (e : ProbeEnv) : Bool × List Res × List Res :=
  if e.buttonOk = false then (false, [], [])
  else if e.ledOk = false then (false, [.button], err_led_rollback)
  else if e.irqGetOk = false then (false, [.button, .led], err_irq_rollback)
  else if e.irqReqOk = false then (false, [.button, .led], err_irq_rollback)
  else if e.chrdevOk = false then (false, [.button, .led, .irq], err_alloc_rollback)
  else if e.cdevAddOk = false then
    (false, [.button, .led, .irq, .chrdev], err_add_rollback)
  else if e.classOk = false then
    (false, [.button, .led, .irq, .chrdev, .cdev], err_class_rollback)
  else if e.sysfsDevOk = false then
    (false, [.button, .led, .irq, .chrdev, .cdev, .devclass, .devNode],
      err_sysfs_dev_rollback)
  else if e.attrOk = false then
    (false, [.button, .led, .irq, .chrdev, .cdev, .devclass, .devNode, .sysfsDev],
      err_sysfs_attr_rollback)
  else (true, gpio_acquire_order, [])

/-- C7 (counterexample): teardown is NOT exactly the reverse of acquisition.
On shutdown, `gpio_remove` never tears down the debounce timer and releases
the button GPIO before the LED GPIO (acquisition order, not reverse); and on
an initialization failure at the last fallible step (device_create_file),
the rollback omits class_destroy for the already-created class. -/
theorem gpio_teardown_not_exact_reverse :
    decide (gpio_remove_seq = gpio_acquire_order.reverse) = false ∧
    decide ((gpio_probe (ProbeEnv.mk true true true true true true true true false)).2.2
      = (gpio_probe
          (ProbeEnv.mk true true true true true true true true false)).2.1.reverse)
      = false := by
  exact ⟨rfl, rfl⟩

/-- C7 (amended): resources are acquired in the strict order button GPIO,
LED GPIO, interrupt handler, chrdev region, cdev, device class, event device
node, sysfs device, status attribute, debounce timer.  On any initialization
failure, exactly the already-acquired resources are released in reverse
acquisition order, except that the device class is never destroyed; a fully
successful probe runs no rollback and acquires everything.  On shutdown,
`gpio_remove` releases the first eight resources in reverse acquisition
order but then releases the button GPIO before the LED GPIO, and never tears
down the debounce timer. -/
theorem gpio_teardown_amended (b1 b2 b3 b4 b5 b6 b7 b8 b9 : Bool) :
    ((gpio_probe (ProbeEnv.mk b1 b2 b3 b4 b5 b6 b7 b8 b9)).1 = false →
      (gpio_probe (ProbeEnv.mk b1 b2 b3 b4 b5 b6 b7 b8 b9)).2.2 =
        ((gpio_probe (ProbeEnv.mk b1 b2 b3 b4 b5 b6 b7 b8 b9)).2.1.reverse.filter
          (fun r => r != Res.devclass))) ∧
    ((gpio_probe (ProbeEnv.mk b1 b2 b3 b4 b5 b6 b7 b8 b9)).1 = true →
      (gpio_probe (ProbeEnv.mk b1 b2 b3 b4 b5 b6 b7 b8 b9)).2.1 = gpio_acquire_order ∧
      (gpio_probe (ProbeEnv.mk b1 b2 b3 b4 b5 b6 b7 b8 b9)).2.2 = []) ∧
    gpio_remove_seq =
      [Res.attr, Res.sysfsDev, Res.devNode, Res.devclass, Res.cdev, Res.chrdev,
        Res.irq] ++ [Res.button, Res.led] ∧
    gpio_acquire_order.reverse =
      [Res.timer] ++ [Res.attr, Res.sysfsDev, Res.devNode, Res.devclass, Res.cdev,
        Res.chrdev, Res.irq] ++ [Res.led, Res.button] := by
  revert b1 b2 b3 b4 b5 b6 b7 b8 b9
  decide

/-- Witness for `gpio_teardown_amended`: with only device_create_file
failing, the probe fails and its rollback is the reverse of the acquired
resources minus the class. -/
theorem gpio_teardown_amended_witness :
    (gpio_probe (ProbeEnv.mk true true true true true true true true false)).1 = false ∧
    (gpio_probe (ProbeEnv.mk true true true true true true true true false)).2.2 =
      ((gpio_probe
          (ProbeEnv.mk true true true true true true true true false)).2.1.reverse.filter
        (fun r => r != Res.devclass)) :=
  ⟨rfl, (gpio_teardown_amended true true true true true true true true false).1 rfl⟩

/-- C3: for every raw falling-edge interrupt, `button_isr` acknowledges the
transition (IRQ_HANDLED) in all cases; when `debounce_active` is set it leaves
the whole state unchanged (in particular no second timer is scheduled); when
clear, it sets `debounce_active` and schedules the debounce timer to fire
exactly 50 ms later, touching nothing else. -/
theorem button_isr_spec (s : Driver) (now : Nat) :
    (button_isr now s).2 = IrqRet.IRQ_HANDLED ∧
    (s.debounce_active = true → (button_isr now s).1 = s) ∧
    (s.debounce_active = false →
      (button_isr now s).1.debounce_active = true ∧
      (button_isr now s).1.timer = some (now + DEBOUNCE_MS) ∧
      (button_isr now s).1.button_event_flag = s.button_event_flag ∧
      (button_isr now s).1.led_status = s.led_status) := by
  unfold button_isr
  rcases s with ⟨da, fl, tm, ls⟩
  cases da <;> simp

/-- Witness for `button_isr_spec` at a concrete idle state. -/
theorem button_isr_spec_witness :
    (Driver.mk false false none 0).debounce_active = false ∧
    (button_isr 7 (Driver.mk false false none 0)).1.timer = some 57 :=
  ⟨rfl, ((button_isr_spec (Driver.mk false false none 0) 7).2.2 rfl).2.1⟩

/-- C4: `debounce_timer_callback` calls `wake_up` iff the sampled line level
is 0; when the level is 0 it sets the event flag, otherwise it leaves the
event flag as it was; it clears `debounce_active` unconditionally and touches
neither the timer nor the LED status. -/
theorem debounce_timer_callback_spec (s : Driver) (sample : Int) :
    ((debounce_timer_callback sample s).2 = true ↔ sample = 0) ∧
    (sample = 0 → (debounce_timer_callback sample s).1.button_event_flag = true) ∧
    (sample ≠ 0 →
      (debounce_timer_callback sample s).1.button_event_flag = s.button_event_flag) ∧
    (debounce_timer_callback sample s).1.debounce_active = false ∧
    (debounce_timer_callback sample s).1.timer = s.timer ∧
    (debounce_timer_callback sample s).1.led_status = s.led_status := by
  unfold debounce_timer_callback
  by_cases h : sample = 0 <;> simp [h]

/-- Witness for `debounce_timer_callback_spec`: a pressed sample (level 0)
sets the event flag and wakes; state `⟨true, false, some 57, 1⟩`. -/
theorem debounce_timer_callback_spec_witness :
    ((0 : Int) = 0 →
      (debounce_timer_callback 0 (Driver.mk true false (some 57) 1)).1.button_event_flag
        = true) ∧
    ((debounce_timer_callback 0 (Driver.mk true false (some 57) 1)).2 = true ↔ (0 : Int) = 0) :=
  ⟨(debounce_timer_callback_spec (Driver.mk true false (some 57) 1) 0).2.1,
   (debounce_timer_callback_spec (Driver.mk true false (some 57) 1) 0).1⟩

/-- C2: whenever `gpio_button_read` returns successfully it returns the single
byte `'1'` (ASCII 49) with count 1 and leaves the event flag cleared, so that
a subsequent read with no new confirmed press (and no signal) blocks. -/
theorem gpio_button_read_success_spec (intr copyOk : Bool) (s : Driver)
    (b : Char) (n : Nat) (s2 : Driver)
    (h : gpio_button_read intr copyOk s = (ReadResult.ok b n, s2)) :
    b = '1' ∧ b.toNat = 49 ∧ n = 1 ∧ s2.button_event_flag = false ∧
    (∀ c : Bool, gpio_button_read false c s2 = (ReadResult.blocked, s2)) := by
  rcases s with ⟨da, fl, tm, ls⟩
  cases fl
  · cases intr <;> cases copyOk <;> simp [gpio_button_read] at h
  · cases copyOk
    · simp [gpio_button_read] at h
    · simp [gpio_button_read] at h
      obtain ⟨⟨h1, h2⟩, h3⟩ := h
      subst h1; subst h2; subst h3
      exact ⟨rfl, rfl, rfl, rfl, fun c => rfl⟩

/-- Witness for `gpio_button_read_success_spec`: with the event flag set, no
signal and a succeeding copy, the read returns ⟨'1', 1⟩. -/
theorem gpio_button_read_success_spec_witness :
    gpio_button_read false true (Driver.mk false true none 0)
      = (ReadResult.ok '1' 1, Driver.mk false false none 0) ∧
    Char.toNat '1' = 49 :=
  ⟨rfl, (gpio_button_read_success_spec false true (Driver.mk false true none 0)
      '1' 1 (Driver.mk false false none 0) rfl).2.1⟩

/-- C8: a blocked read cancelled by a signal before any confirmed press
(event flag clear, `intr = true`) returns the distinguished -ERESTARTSYS
outcome and leaves the entire driver state — in particular the pending-event
flag — unchanged. -/
theorem gpio_button_read_interrupted_spec (copyOk : Bool) (s : Driver)
    (hf : s.button_event_flag = false) :
    gpio_button_read true copyOk s = (ReadResult.err Errno.ERESTARTSYS, s) := by
  unfold gpio_button_read
  simp [hf]

/-- Witness for `gpio_button_read_interrupted_spec` at a concrete state with
no pending event. -/
theorem gpio_button_read_interrupted_spec_witness :
    gpio_button_read true true (Driver.mk false false none 1)
      = (ReadResult.err Errno.ERESTARTSYS, Driver.mk false false none 1) :=
  gpio_button_read_interrupted_spec true (Driver.mk false false none 1) rfl

/-- C9: `gpio_button_poll` reports POLLIN iff the event flag is currently set,
returns the driver state unchanged, and iterating it any number of times
still leaves the state unchanged (it never consumes the event). -/
theorem gpio_button_poll_spec (s : Driver) :
    ((gpio_button_poll s).1 = POLLIN ↔ s.button_event_flag = true) ∧
    (gpio_button_poll s).2 = s ∧
    (∀ n : Nat, pollState^[n] s = s) := by
  refine ⟨?_, rfl, fun n => Function.iterate_fixed rfl n⟩
  unfold gpio_button_poll POLLIN
  cases h : s.button_event_flag <;> simp

/-- Witness for `gpio_button_poll_spec`: with the flag set, poll reports
POLLIN; with it clear, it does not. -/
theorem gpio_button_poll_spec_witness :
    (Driver.mk false true none 0).button_event_flag = true ∧
    (gpio_button_poll (Driver.mk false true none 0)).1 = POLLIN :=
  ⟨rfl, (gpio_button_poll_spec (Driver.mk false true none 0)).1.mpr rfl⟩

/-!
Interleaving model of two concurrent `gpio_button_read` callers.

`gpio_button_read` performs its test of the event flag and its clear of the
event flag as two separate atomic operations: the wait condition
`atomic_read(&button_event_flag)` at line 73, and `atomic_set(&button_event_flag, 0)`
at line 82.  Nothing in between holds a lock, and `wake_up` (line 48) wakes
every non-exclusive waiter on `button_wait`.  The model below gives each of
two reader tasks exactly those two shared-memory steps and lets the scheduler
interleave them.
-/

/-- Program counter of one reader task inside `gpio_button_read`:
`atWait` — blocked in / entering `wait_event_interruptible` (line 73);
`woken` — the wait condition was observed true, line 73 has returned 0;
`retOne` — the task executed the clear at line 82 and returned the `'1'`
token (lines 79-88). -/
inductive RdPc
  | atWait
  | woken
  | retOne
  deriving DecidableEq, Repr

/-- Shared flag plus the two readers' program counters. -/
structure RaceState where
  flag : Bool
  pcA : RdPc
  pcB : RdPc
  deriving DecidableEq, Repr

/-- One scheduler choice: which reader executes its next atomic operation. -/
inductive RdAct
  | checkA
  | clearA
  | checkB
  | clearB
  deriving DecidableEq, Repr

/-- Small-step semantics of the two-reader system.  `check` is enabled when
the reader is at the wait and the flag is set (the condition test at line 73
does not modify the flag); `clear` is enabled once the reader has passed the
wait and performs `atomic_set(&button_event_flag, 0)` (line 82) and returns.
A disabled action yields `none`. -/
def raceStep (a : RdAct) (s : RaceState) : Option RaceState :=
  match a with
  | .checkA => if s.pcA = .atWait ∧ s.flag = true then some { s with pcA := .woken } else none
  | .clearA => if s.pcA = .woken then some { s with flag := false, pcA := .retOne } else none
  | .checkB => if s.pcB = .atWait ∧ s.flag = true then some { s with pcB := .woken } else none
  | .clearB => if s.pcB = .woken then some { s with flag := false, pcB := .retOne } else none

/-- Run a schedule (a list of scheduler choices) from a state. -/
def raceRun (acts : List RdAct) (s : RaceState) : Option RaceState :=
  acts.foldlM (fun st a => raceStep a st) s

/-- C1: double consumption of a single confirmed press.  From the state in
which exactly one confirmed press is pending (`flag = true`, both readers
blocked at line 73), the legal schedule "A passes the wait check, B passes
the wait check, A clears and returns, B clears and returns" is accepted by
the step semantics and ends with BOTH readers having returned a `'1'` token.
The test at line 73 and the clear at line 82 are not one atomic step, so two
callers can both observe the same press — refuting the claimed exactly-once
guarantee. -/
theorem read_double_consumption :
    raceRun [RdAct.checkA, RdAct.checkB, RdAct.clearA, RdAct.clearB]
        (RaceState.mk true RdPc.atWait RdPc.atWait)
      = some (RaceState.mk false RdPc.retOne RdPc.retOne) := by
  decide

/-!
Memory accesses of `led_status_store` into its 16-byte local buffer.

`led_status_store` (lines 115-159) declares `char local_buf[16]` (line 118)
and guards `count >= sizeof(local_buf)` (line 122).  For a `count` that
passes the guard it then accesses: indices `0 .. count-1` (the `memcpy`,
line 128), index `count` (the NUL terminator, line 129), and index
`count - 1` (the trailing-newline test and possible overwrite, lines
132-133).  `count` has type `size_t`, so `count - 1` is computed modulo
2^64: for `count = 0` it is 2^64 - 1, far outside the buffer.
-/

/-- 2^64, the modulus of `size_t` arithmetic on the target platform. -/
def SIZE_T_MOD : Nat := 2 ^ 64

/-- The index `count - 1` of the trailing-newline test (line 132), computed
in `size_t` arithmetic. -/
def newline_check_index (count : Nat) : Nat :=
  (count + (SIZE_T_MOD - 1)) % SIZE_T_MOD

/-- All indices of `local_buf` accessed by `led_status_store` once the size
guard has passed: the memcpy bytes, the NUL store, and the newline test. -/
def store_buffer_accesses (count : Nat) : List Nat :=
  List.range count ++ [count] ++ [newline_check_index count]

/-- Whether every such access lies inside the 16-byte `local_buf`. -/
def store_accesses_ok (count : Nat) : Bool :=
  (store_buffer_accesses count).all (fun i => decide (i < 16))

/-- C10: the size guard (`count < 16`) does NOT make every buffer access of
`led_status_store` in-bounds.  At `count = 0` — which passes the guard — the
trailing-newline test reads `local_buf[count - 1]` = `local_buf[2^64 - 1]`,
out of bounds; for every nonzero `count` that passes the guard all accesses
are in bounds, so the empty write is exactly the failing case. -/
theorem led_status_store_oob_empty_write :
    store_accesses_ok 0 = false ∧
    newline_check_index 0 = 2 ^ 64 - 1 ∧
    ((List.range 16).all fun c => decide (c = 0) || store_accesses_ok c) = true := by
  refine ⟨?_, by decide, by decide⟩
  decide

end GpioButton
